import Mathlib

/-!
Verification development for the LLMManager repository
(`src/core/llmmanager.py`, `src/core/llm.py`, `src/core/message.py`,
`src/core/config.py`).

Shallow embedding choices:
* Python dicts (`model_catalog`, `model_instances`, and the result mapping of
  `use_multiple_models`) are association lists over `String` keys with
  first-match lookup; Python dict insertion (`d[k] = v`) updates in place when
  the key is present and appends otherwise, deletion removes the (unique)
  entry, and dict-comprehension keys keep first-occurrence order with later
  duplicates collapsed.  These are `dictGet`, `dictSet`, `dictDel`,
  `pyDictKeys` below.
* A Python method that can raise is translated to a function returning a pair
  of an `Except` outcome and the manager state as it stands when the method
  returns or raises; reading the source, every raise in `llmmanager.py`
  happens before any mutation, so the error branches return the input state.
* An `LLM` backend object is its `generate` behaviour
  (`List Message → Except String String`, the `String` error being the
  stringified Python exception), its stored `Config`, and its mutable
  `context`.
* `asyncio.gather` over the task dict of `use_multiple_models` is modelled as
  sequential execution in key order: the event loop is single threaded, each
  `use_model` coroutine suspends only at `generate`, and distinct instance
  ids touch disjoint registry entries, so every interleaving is
  observationally equal to the sequential one.  Duplicate ids produce extra
  coroutine objects that are overwritten in the task dict and never awaited,
  hence never run.
-/

/-- One chat message, from `src/core/message.py`: a role tag and text content. -/
structure Message where
  role : String
  content : String
deriving DecidableEq, Repr

/-- Configuration holder from `src/core/config.py`: a key/value store
(values simplified to strings; no claim inspects them). -/
structure Config where
  params : List (String × String)
deriving DecidableEq, Repr

/-- Behaviour of a backend's `generate`: from a conversation context, either a
response text or the message of the raised backend exception. -/
def GenFun : Type := List Message → Except String String

/-- A live LLM instance (`src/core/llm.py`): stored config, the backend
`generate` behaviour, and the mutable conversation context (empty at
construction, per `LLM.__init__`). -/
structure LLMInst where
  config : Config
  generate : GenFun
  context : List Message

/-- The single quote character, used in the Python error message f-strings. -/
def pyQuote : String := String.singleton (Char.ofNat 39)

/-- The distinct `ValueError` cases raised by `LLMManager` (the spec names
them `DuplicateTypeError`, `UnknownTypeError`, `DuplicateInstanceError`,
`InstanceNotFoundError`). -/
inductive MgrError where
  | duplicateType (name : String)
  | unknownType (name : String)
  | duplicateInstance (id : String)
  | instanceNotFound (id : String)
deriving DecidableEq, Repr

/-- The Python `str()` of each `ValueError`, from the f-strings in
`llmmanager.py`. -/
def MgrError.message : MgrError → String
  | .duplicateType name => "MODEL CLASS " ++ pyQuote ++ name ++ pyQuote ++ " ALREADY REGISTERED."
  | .unknownType name => "MODEL CLASS " ++ pyQuote ++ name ++ pyQuote ++ " IS NOT REGISTERED."
  | .duplicateInstance id => "INSTANCE ID " ++ pyQuote ++ id ++ pyQuote ++ " ALREADY EXISTS."
  | .instanceNotFound id => "INSTANCE " ++ pyQuote ++ id ++ pyQuote ++ " NOT FOUND."

/-- What a `use_model` call can raise: a manager `ValueError` or the backend
exception escaping `generate`. -/
inductive DispatchError where
  | mgr (e : MgrError)
  | backend (msg : String)
deriving Repr

/-- The Python `str()` of a `use_model` exception, as interpolated by
`f"ERROR: {result}"` in `use_multiple_models`. -/
def DispatchError.pyStr : DispatchError → String
  | .mgr e => e.message
  | .backend msg => msg

/-- Python `str.upper()` as the character-wise uppercase map (the role tags
involved are ASCII, where this agrees with Python's Unicode-aware upper). -/
def pyUpper (s : String) : String := String.mk (s.data.map Char.toUpper)

/-- First-match lookup in an association list: Python `d[k]` / `k in d`. -/
def dictGet {α : Type} : List (String × α) → String → Option α
  | [], _ => none
  | (k, v) :: rest, key => if k = key then some v else dictGet rest key

/-- Python `d[k] = v`: replace the value at the first matching key, or append
a new entry when the key is absent. -/
def dictSet {α : Type} : List (String × α) → String → α → List (String × α)
  | [], key, v => [(key, v)]
  | (k, w) :: rest, key, v =>
      if k = key then (k, v) :: rest else (k, w) :: dictSet rest key v

/-- Python `del d[k]` (guarded by `k in d` at every call site): drop the first
entry with the given key. -/
def dictDel {α : Type} : List (String × α) → String → List (String × α)
  | [], _ => []
  | (k, w) :: rest, key => if k = key then rest else (k, w) :: dictDel rest key

/-- One dict-comprehension step on the key list: a key already present keeps
its position (its value is overwritten), a new key is appended. -/
def pyKeyInsert (acc : List String) (x : String) : List String :=
  if x ∈ acc then acc else acc ++ [x]

/-- Keys of a Python dict comprehension over a list: first-occurrence order,
later duplicates collapsed onto the existing key. -/
def pyDictKeys (l : List String) : List String :=
  l.foldl pyKeyInsert []

/-- The manager state (`LLMManager.__init__`): the catalog of registered
model types (keyed by class name, carrying the class's `generate` behaviour)
and the map of live instances keyed by instance id. -/
structure LLMManager where
  modelCatalog : List (String × GenFun)
  modelInstances : List (String × LLMInst)

/-- A freshly constructed manager: both dicts empty. -/
def LLMManager.fresh : LLMManager := ⟨[], []⟩

/-- `LLMManager.register_model_type`: reject an already-registered class,
otherwise insert it into the catalog.  (The `issubclass` check is enforced by
the type of `gen` here.)  The returned manager is the state when the method
returns or raises. -/
def register_model_type (m : LLMManager) (name : String) (gen : GenFun) :
    Except MgrError Unit × LLMManager :=
  if (dictGet m.modelCatalog name).isSome then
    (.error (.duplicateType name), m)
  else
    (.ok (), { m with modelCatalog := dictSet m.modelCatalog name gen })

/-- `LLMManager.instantiate_model`: unknown type and duplicate id are
rejected in that order; otherwise a new instance is constructed from the
config with an empty context (per `LLM.__init__`) and stored under the id. -/
def instantiate_model (m : LLMManager) (instance_id model_type : String)
    (config : Config) : Except MgrError Unit × LLMManager :=
  match dictGet m.modelCatalog model_type with
  | none => (.error (.unknownType model_type), m)
  | some gen =>
      if (dictGet m.modelInstances instance_id).isSome then
        (.error (.duplicateInstance instance_id), m)
      else
        let instances := dictSet m.modelInstances instance_id ⟨config, gen, []⟩
        (.ok (), { m with modelInstances := instances })

/-- `LLMManager.remove_model`: nothing when the id is absent; otherwise
`reset_context()` (clear the instance's context in place) and then delete the
map entry.  Never raises. -/
def remove_model (m : LLMManager) (instance_id : String) : LLMManager :=
  match dictGet m.modelInstances instance_id with
  | none => m
  | some llm =>
      let cleared := dictSet m.modelInstances instance_id { llm with context := [] }
      { m with modelInstances := dictDel cleared instance_id }

/-- Lines 90-92 of `llmmanager.py`: the working context is a copy of the live
context, with `Message(role, prompt)` appended when `append_prompt` is set. -/
def working_context (llm : LLMInst) (prompt role : String)
    (append_prompt : Bool) : List Message :=
  if append_prompt then llm.context ++ [Message.mk role prompt]
  else llm.context

/-- `LLMManager.use_model`: resolve the instance (raising
`INSTANCE ... NOT FOUND.` if absent), call `generate` on the working context,
and on success append prompt (when both flags are set) and response (when
`save_context` is set) to the live context.  The second component is the
manager state when the coroutine returns or raises; every raise happens
before any mutation. -/
def use_model (m : LLMManager) (instance_id prompt role : String)
    ( save_context append_prompt : Bool) :
    Except DispatchError String × LLMManager :=
  match dictGet m.modelInstances instance_id with
  | none => (.error (.mgr (.instanceNotFound instance_id)), m)
  | some llm =>
      match llm.generate (working_context llm prompt role append_prompt) with
      | .error e => (.error (.backend e), m)
      | .ok response =>
          if save_context then
            let newCtx :=
              (if append_prompt then llm.context ++ [Message.mk role prompt]
               else llm.context) ++ [Message.mk "assistant" response]
            let instances := dictSet m.modelInstances instance_id { llm with context := newCtx }
            (.ok response, { m with modelInstances := instances })
          else
            (.ok response, m)

/-- Line 128 of `llmmanager.py`: the value entered into the result dict for
one settled task — the response itself, or `"ERROR: " ++ str(exception)`. -/
def umEntry (res : Except DispatchError String) : String :=
  match res with
  | .ok response => response
  | .error e => "ERROR: " ++ e.pyStr

/-- The result-dict value a single target receives: response on success,
error marker on failure. -/
def use_model_outcome (m : LLMManager) (instance_id prompt role : String)
    ( save_context append_prompt : Bool) : String :=
  umEntry (use_model m instance_id prompt role save_context append_prompt).1

/-- Sequential execution of the gathered `use_model` tasks in task-dict key
order, threading the manager state; a failed task contributes its error
marker and leaves the state as `use_model` left it (unchanged). -/
def umGo (m : LLMManager) (ids : List String) (prompt role : String)
    ( save_context append_prompt : Bool) :
    List (String × String) × LLMManager :=
  match ids with
  | [] => ([], m)
  | id :: rest =>
      ((id, umEntry (use_model m id prompt role save_context append_prompt).1)
         :: (umGo (use_model m id prompt role save_context append_prompt).2
              rest prompt role save_context append_prompt).1,
       (umGo (use_model m id prompt role save_context append_prompt).2
          rest prompt role save_context append_prompt).2)

/-- `LLMManager.use_multiple_models`: build the task dict (one task per
distinct id, keys in first-occurrence order), gather with
`return_exceptions=True`, and map each id to its response or error marker.
Never raises. -/
def use_multiple_models (m : LLMManager) (instance_ids : List String)
    (prompt role : String) ( save_context append_prompt : Bool) :
    List (String × String) × LLMManager :=
  umGo m (pyDictKeys instance_ids) prompt role save_context append_prompt

/-- `LLMManager.print_conversation_history` modelled as the sequence of
rendered lines: fails when the id is absent, otherwise yields the
(uppercased role, content) pair of each context message in order.  The
Python body only reads `self.model_instances` and prints; the manager state
is untouched, so no state is returned. -/
def print_conversation_history (m : LLMManager) (instance_id : String) :
    Except MgrError (List (String × String)) :=
  match dictGet m.modelInstances instance_id with
  | none => .error (.instanceNotFound instance_id)
  | some llm => .ok (llm.context.map (fun msg => (pyUpper msg.role, msg.content)))

/-- Modelled from the spec: the `EchoBackend` of the concrete test scenario
(section 8.7), whose `generate` returns `"ECHO:"` followed by the content of
the last message of the context (no such backend exists under `src/`). -/
def echoGen : GenFun := fun msgs =>
  .ok ("ECHO:" ++ ((msgs.getLast?.map Message.content).getD ""))

/-- A backend whose `generate` raises deterministically, for exercising the
failure paths (the spec's deterministically-failing backend of section 8.5). -/
def failGen : GenFun := fun _ => .error "BACKEND FAILURE"

/-- An empty configuration object. -/
def cfg0 : Config := ⟨[]⟩

/-- The registry of the spec's concrete scenario: only the type `Echo`
registered, and one echo instance `a` live with empty context. -/
def echoM : LLMManager :=
  (instantiate_model (register_model_type LLMManager.fresh "Echo" echoGen).2
    "a" "Echo" cfg0).2

/-- A concrete manager: types `Echo` and `Fail` registered, echo instances
`a` and `b` and a failing instance `f` live, all with empty context. -/
def demoM : LLMManager :=
  (instantiate_model
    (instantiate_model
      (instantiate_model
        (register_model_type (register_model_type LLMManager.fresh "Echo" echoGen).2
          "Fail" failGen).2
        "a" "Echo" cfg0).2
      "b" "Echo" cfg0).2
    "f" "Fail" cfg0).2

section DictLemmas

variable {α : Type}

theorem dictGet_dictSet_self (l : List (String × α)) (k : String) (v : α) :
    dictGet (dictSet l k v) k = some v := by
  induction l with
  | nil => simp [dictGet, dictSet]
  | cons hd tl ih =>
      obtain ⟨k', v'⟩ := hd
      by_cases h : k' = k
      · simp [dictGet, dictSet, h]
      · simp [dictGet, dictSet, h, ih]

theorem dictGet_dictSet_ne (l : List (String × α)) (k j : String) (v : α)
    (h : j ≠ k) : dictGet (dictSet l k v) j = dictGet l j := by
  have hkj : ¬ k = j := fun hh => h hh.symm
  induction l with
  | nil => simp [dictGet, dictSet, hkj]
  | cons hd tl ih =>
      obtain ⟨k', v'⟩ := hd
      by_cases hk : k' = k
      · subst hk
        simp [dictGet, dictSet, hkj]
      · by_cases hj : k' = j
        · simp [dictGet, dictSet, hk, hj, h]
        · simp [dictGet, dictSet, hk, hj, ih]

theorem dictGet_eq_none_iff (l : List (String × α)) (k : String) :
    dictGet l k = none ↔ k ∉ l.map Prod.fst := by
  induction l with
  | nil => simp [dictGet]
  | cons hd tl ih =>
      obtain ⟨k', v'⟩ := hd
      by_cases h : k' = k
      · simp [dictGet, h]
      · simp [dictGet, h, ih, Ne.symm h]

theorem keys_dictSet_present (l : List (String × α)) (k : String) (v : α)
    (h : (dictGet l k).isSome) :
    (dictSet l k v).map Prod.fst = l.map Prod.fst := by
  induction l with
  | nil => simp [dictGet] at h
  | cons hd tl ih =>
      obtain ⟨k', v'⟩ := hd
      by_cases hk : k' = k
      · simp [dictSet, hk]
      · simp [dictGet, hk] at h
        simp [dictSet, hk, ih h]

theorem keys_dictSet_absent (l : List (String × α)) (k : String) (v : α)
    (h : dictGet l k = none) :
    (dictSet l k v).map Prod.fst = l.map Prod.fst ++ [k] := by
  induction l with
  | nil => simp [dictSet]
  | cons hd tl ih =>
      obtain ⟨k', v'⟩ := hd
      by_cases hk : k' = k
      · simp [dictGet, hk] at h
      · simp [dictGet, hk] at h
        simp [dictSet, hk, ih h]

theorem dictDel_sublist (l : List (String × α)) (k : String) :
    (dictDel l k).Sublist l := by
  induction l with
  | nil => simp [dictDel]
  | cons hd tl ih =>
      obtain ⟨k', v'⟩ := hd
      by_cases hk : k' = k
      · simp [dictDel, hk, List.sublist_cons_self]
      · simpa [dictDel, hk] using List.Sublist.cons₂ (k', v') ih

theorem dictGet_dictDel_self (l : List (String × α)) (k : String)
    (h : (l.map Prod.fst).Nodup) : dictGet (dictDel l k) k = none := by
  induction l with
  | nil => simp [dictDel, dictGet]
  | cons hd tl ih =>
      obtain ⟨k', v'⟩ := hd
      simp only [List.map_cons, List.nodup_cons] at h
      by_cases hk : k' = k
      · subst hk
        rw [dictGet_eq_none_iff]
        simpa [dictDel] using h.1
      · simp [dictDel, dictGet, hk, ih h.2]

theorem dictGet_dictDel_ne (l : List (String × α)) (k j : String)
    (h : j ≠ k) : dictGet (dictDel l k) j = dictGet l j := by
  have hkj : ¬ k = j := fun hh => h hh.symm
  induction l with
  | nil => simp [dictDel]
  | cons hd tl ih =>
      obtain ⟨k', v'⟩ := hd
      by_cases hk : k' = k
      · subst hk
        simp [dictDel, dictGet, hkj]
      · by_cases hj : k' = j
        · simp [dictDel, dictGet, hk, hj, h]
        · simp [dictDel, dictGet, hk, hj, ih]

end DictLemmas

theorem mem_pyKeyInsert (acc : List String) (x y : String) :
    y ∈ pyKeyInsert acc x ↔ y ∈ acc ∨ y = x := by
  unfold pyKeyInsert
  by_cases hx : x ∈ acc
  · simp only [hx, if_true]
    constructor
    · exact Or.inl
    · rintro (hy | rfl)
      · exact hy
      · exact hx
  · simp [hx]

theorem mem_foldl_pyKeyInsert (l acc : List String) (y : String) :
    y ∈ l.foldl pyKeyInsert acc ↔ y ∈ acc ∨ y ∈ l := by
  induction l generalizing acc with
  | nil => simp
  | cons x xs ih =>
      rw [List.foldl_cons, ih, mem_pyKeyInsert]
      simp only [List.mem_cons]
      tauto

theorem nodup_foldl_pyKeyInsert (l acc : List String) (h : acc.Nodup) :
    (l.foldl pyKeyInsert acc).Nodup := by
  induction l generalizing acc with
  | nil => exact h
  | cons x xs ih =>
      rw [List.foldl_cons]
      refine ih (pyKeyInsert acc x) ?_
      unfold pyKeyInsert
      by_cases hx : x ∈ acc
      · simpa [hx] using h
      · simp only [hx, if_false]
        simp [List.nodup_append, h, hx]

theorem foldl_pyKeyInsert_disjoint (l : List String) :
    ∀ acc, l.Nodup → (∀ x ∈ l, x ∉ acc) → l.foldl pyKeyInsert acc = acc ++ l := by
  induction l with
  | nil => simp
  | cons x xs ih =>
      intro acc hnd hdis
      rw [List.nodup_cons] at hnd
      have hx : x ∉ acc := hdis x (List.mem_cons_self x xs)
      rw [List.foldl_cons]
      have hstep : pyKeyInsert acc x = acc ++ [x] := by simp [pyKeyInsert, hx]
      rw [hstep, ih (acc ++ [x]) hnd.2 ?_]
      · simp
      · intro y hy
        simp only [List.mem_append, List.mem_singleton]
        rintro (hya | rfl)
        · exact hdis y (List.mem_cons_of_mem x hy) hya
        · exact hnd.1 hy

theorem mem_pyDictKeys (l : List String) (y : String) :
    y ∈ pyDictKeys l ↔ y ∈ l := by
  unfold pyDictKeys
  rw [mem_foldl_pyKeyInsert]
  simp

theorem nodup_pyDictKeys (l : List String) : (pyDictKeys l).Nodup :=
  nodup_foldl_pyKeyInsert l [] List.nodup_nil

theorem pyDictKeys_eq_self_of_nodup (l : List String) (h : l.Nodup) :
    pyDictKeys l = l := by
  unfold pyDictKeys
  rw [foldl_pyKeyInsert_disjoint l [] h (by simp)]
  simp

theorem pyDictKeys_idem (l : List String) :
    pyDictKeys (pyDictKeys l) = pyDictKeys l :=
  pyDictKeys_eq_self_of_nodup _ (nodup_pyDictKeys l)

/-- The instance as stored back by a successful saving `use_model`: prompt
appended when `append_prompt` was set, then the assistant response. -/
def saved_instance (llm : LLMInst) (prompt role resp : String)
    (append_prompt : Bool) : LLMInst :=
  LLMInst.mk llm.config llm.generate
    ((if append_prompt then llm.context ++ [Message.mk role prompt]
      else llm.context) ++ [Message.mk "assistant" resp])

theorem use_model_none (m : LLMManager) (id p r : String) ( sc ap : Bool)
    (h : dictGet m.modelInstances id = none) :
    use_model m id p r sc ap = (.error (.mgr (.instanceNotFound id)), m) := by
  simp [use_model, h]

theorem use_model_gen_err (m : LLMManager) (id p r : String) ( sc ap : Bool)
    (llm : LLMInst) (e : String)
    (h : dictGet m.modelInstances id = some llm)
    (hg : llm.generate (working_context llm p r ap) = .error e) :
    use_model m id p r sc ap = (.error (.backend e), m) := by
  simp [use_model, h, hg]

theorem use_model_gen_ok_save (m : LLMManager) (id p r : String) ( ap : Bool)
    (llm : LLMInst) (resp : String)
    (h : dictGet m.modelInstances id = some llm)
    (hg : llm.generate (working_context llm p r ap) = .ok resp) :
    use_model m id p r true ap =
      (.ok resp,
       LLMManager.mk m.modelCatalog
         (dictSet m.modelInstances id (saved_instance llm p r resp ap))) := by
  simp [use_model, h, hg, saved_instance]

theorem use_model_gen_ok_nosave (m : LLMManager) (id p r : String) ( ap : Bool)
    (llm : LLMInst) (resp : String)
    (h : dictGet m.modelInstances id = some llm)
    (hg : llm.generate (working_context llm p r ap) = .ok resp) :
    use_model m id p r false ap = (.ok resp, m) := by
  simp [use_model, h, hg]

theorem use_model_get_ne (m : LLMManager) (id j p r : String) ( sc ap : Bool)
    (h : j ≠ id) :
    dictGet (use_model m id p r sc ap).2.modelInstances j
      = dictGet m.modelInstances j := by
  cases hg : dictGet m.modelInstances id with
  | none => rw [use_model_none m id p r sc ap hg]
  | some llm =>
      cases hgen : llm.generate (working_context llm p r ap) with
      | error e => rw [use_model_gen_err m id p r sc ap llm e hg hgen]
      | ok resp =>
          cases sc with
          | false => rw [use_model_gen_ok_nosave m id p r ap llm resp hg hgen]
          | true =>
              rw [use_model_gen_ok_save m id p r ap llm resp hg hgen]
              exact dictGet_dictSet_ne _ _ _ _ h

theorem use_model_congr (m₁ m₂ : LLMManager) (id p r : String) ( sc ap : Bool)
    (h : dictGet m₁.modelInstances id = dictGet m₂.modelInstances id) :
    (use_model m₁ id p r sc ap).1 = (use_model m₂ id p r sc ap).1 ∧
    dictGet (use_model m₁ id p r sc ap).2.modelInstances id
      = dictGet (use_model m₂ id p r sc ap).2.modelInstances id := by
  cases hg : dictGet m₂.modelInstances id with
  | none =>
      have h₁ : dictGet m₁.modelInstances id = none := h.trans hg
      rw [use_model_none m₁ id p r sc ap h₁, use_model_none m₂ id p r sc ap hg]
      exact ⟨rfl, h⟩
  | some llm =>
      have h₁ : dictGet m₁.modelInstances id = some llm := h.trans hg
      cases hgen : llm.generate (working_context llm p r ap) with
      | error e =>
          rw [use_model_gen_err m₁ id p r sc ap llm e h₁ hgen,
              use_model_gen_err m₂ id p r sc ap llm e hg hgen]
          exact ⟨rfl, h⟩
      | ok resp =>
          cases sc with
          | false =>
              rw [use_model_gen_ok_nosave m₁ id p r ap llm resp h₁ hgen,
                  use_model_gen_ok_nosave m₂ id p r ap llm resp hg hgen]
              exact ⟨rfl, h⟩
          | true =>
              rw [use_model_gen_ok_save m₁ id p r ap llm resp h₁ hgen,
                  use_model_gen_ok_save m₂ id p r ap llm resp hg hgen]
              exact ⟨rfl, by simp [dictGet_dictSet_self]⟩

theorem use_model_outcome_congr (m₁ m₂ : LLMManager) (id p r : String)
    ( sc ap : Bool)
    (h : dictGet m₁.modelInstances id = dictGet m₂.modelInstances id) :
    use_model_outcome m₁ id p r sc ap = use_model_outcome m₂ id p r sc ap := by
  unfold use_model_outcome
  rw [(use_model_congr m₁ m₂ id p r sc ap h).1]

theorem umGo_not_mem (ids : List String) (m : LLMManager) (p r : String)
    ( sc ap : Bool) (id : String) (h : id ∉ ids) :
    dictGet (umGo m ids p r sc ap).1 id = none ∧
    dictGet (umGo m ids p r sc ap).2.modelInstances id
      = dictGet m.modelInstances id := by
  induction ids generalizing m with
  | nil => exact ⟨rfl, rfl⟩
  | cons x rest ih =>
      have hx : id ≠ x := fun hh => h (hh ▸ List.mem_cons_self x rest)
      have hrest : id ∉ rest := fun hh => h (List.mem_cons_of_mem x hh)
      have ih' := ih (use_model m x p r sc ap).2 hrest
      refine ⟨?_, ?_⟩
      · simpa [umGo, dictGet, Ne.symm hx] using ih'.1
      · simpa [umGo, ih'.2] using use_model_get_ne m x id p r sc ap hx

theorem umGo_spec (ids : List String) (m : LLMManager) (p r : String)
    ( sc ap : Bool) (id : String) (hnd : ids.Nodup) (h : id ∈ ids) :
    dictGet (umGo m ids p r sc ap).1 id
      = some (use_model_outcome m id p r sc ap) ∧
    dictGet (umGo m ids p r sc ap).2.modelInstances id
      = dictGet (use_model m id p r sc ap).2.modelInstances id := by
  induction ids generalizing m with
  | nil => simp at h
  | cons x rest ih =>
      rw [List.nodup_cons] at hnd
      by_cases hx : id = x
      · subst hx
        have hrest : id ∉ rest := hnd.1
        have hn := umGo_not_mem rest (use_model m id p r sc ap).2 p r sc ap id hrest
        refine ⟨?_, ?_⟩
        · simp [umGo, dictGet, use_model_outcome]
        · simpa [umGo] using hn.2
      · have hrest : id ∈ rest := (List.mem_cons.mp h).resolve_left hx
        have hframe := use_model_get_ne m x id p r sc ap hx
        have hcongr := use_model_congr (use_model m x p r sc ap).2 m id p r sc ap hframe
        have ih' := ih (use_model m x p r sc ap).2 hnd.2 hrest
        refine ⟨?_, ?_⟩
        · rw [show dictGet (umGo m (x :: rest) p r sc ap).1 id
                = dictGet (umGo (use_model m x p r sc ap).2 rest p r sc ap).1 id by
              simp [umGo, dictGet, Ne.symm hx]]
          rw [ih'.1]
          have : use_model_outcome (use_model m x p r sc ap).2 id p r sc ap
              = use_model_outcome m id p r sc ap :=
            use_model_outcome_congr _ _ id p r sc ap hframe
          rw [this]
        · rw [show (umGo m (x :: rest) p r sc ap).2
                = (umGo (use_model m x p r sc ap).2 rest p r sc ap).2 by
              simp [umGo]]
          rw [ih'.2]
          exact hcongr.2

/-- One administrative operation against the registry. -/
inductive MgrOp where
  | reg (name : String) (gen : GenFun)
  | inst (id type_name : String) (config : Config)
  | rem (id : String)

/-- Apply one operation; the caller catches any `ValueError`, so the state is
the one the method left behind whether it returned or raised. -/
def applyOp (m : LLMManager) : MgrOp → LLMManager
  | .reg name gen => (register_model_type m name gen).2
  | .inst id t c => (instantiate_model m id t c).2
  | .rem id => remove_model m id

/-- Run a sequence of administrative operations left to right. -/
def runOps (m : LLMManager) (ops : List MgrOp) : LLMManager :=
  ops.foldl applyOp m

/-- The live-instance map has no two entries with the same id. -/
def instKeysNodup (m : LLMManager) : Prop :=
  (m.modelInstances.map Prod.fst).Nodup

theorem register_model_type_instances (m : LLMManager) (name : String)
    (gen : GenFun) :
    (register_model_type m name gen).2.modelInstances = m.modelInstances := by
  unfold register_model_type
  by_cases h : (dictGet m.modelCatalog name).isSome <;> simp [h]

theorem instantiate_model_nodup (m : LLMManager) (id t : String) (c : Config)
    (h : instKeysNodup m) : instKeysNodup (instantiate_model m id t c).2 := by
  unfold instantiate_model
  cases hc : dictGet m.modelCatalog t with
  | none => exact h
  | some gen =>
      by_cases hi : (dictGet m.modelInstances id).isSome
      · simpa [hi] using h
      · have hnone : dictGet m.modelInstances id = none :=
          Option.not_isSome_iff_eq_none.mp hi
        have hid : id ∉ m.modelInstances.map Prod.fst :=
          (dictGet_eq_none_iff _ _).mp hnone
        simp only [hi, Bool.false_eq_true, if_false, instKeysNodup]
        rw [keys_dictSet_absent _ _ _ hnone]
        simp only [List.nodup_append, List.nodup_cons, List.not_mem_nil,
          not_false_iff, List.nodup_nil, and_true, true_and]
        refine ⟨h, ?_⟩
        intro a ha hh
        simp only [List.mem_singleton] at hh
        exact hid (hh ▸ ha)

theorem remove_model_nodup (m : LLMManager) (id : String)
    (h : instKeysNodup m) : instKeysNodup (remove_model m id) := by
  unfold remove_model
  cases hg : dictGet m.modelInstances id with
  | none => exact h
  | some llm =>
      have hkeys :
          (dictSet m.modelInstances id (LLMInst.mk llm.config llm.generate [])).map Prod.fst
            = m.modelInstances.map Prod.fst :=
        keys_dictSet_present _ _ _ (by simp [hg])
      have hsub := (dictDel_sublist
        (dictSet m.modelInstances id (LLMInst.mk llm.config llm.generate [])) id).map Prod.fst
      exact List.Nodup.sublist (hkeys ▸ hsub) h

theorem applyOp_nodup (m : LLMManager) (op : MgrOp) (h : instKeysNodup m) :
    instKeysNodup (applyOp m op) := by
  cases op with
  | reg name gen =>
      unfold applyOp instKeysNodup
      rw [register_model_type_instances]
      exact h
  | inst id t c => exact instantiate_model_nodup m id t c h
  | rem id => exact remove_model_nodup m id h

theorem runOps_nodup (ops : List MgrOp) (m : LLMManager)
    (h : instKeysNodup m) : instKeysNodup (runOps m ops) := by
  induction ops generalizing m with
  | nil => exact h
  | cons op rest ih => exact ih (applyOp m op) (applyOp_nodup m op h)

theorem remove_model_absent (m : LLMManager) (id : String)
    (h : dictGet m.modelInstances id = none) : remove_model m id = m := by
  simp [remove_model, h]

theorem remove_model_get_self (m : LLMManager) (id : String)
    (h : instKeysNodup m) :
    dictGet (remove_model m id).modelInstances id = none := by
  unfold remove_model
  cases hg : dictGet m.modelInstances id with
  | none => exact hg
  | some llm =>
      have hkeys :
          (dictSet m.modelInstances id (LLMInst.mk llm.config llm.generate [])).map Prod.fst
            = m.modelInstances.map Prod.fst :=
        keys_dictSet_present _ _ _ (by simp [hg])
      exact dictGet_dictDel_self _ _ (hkeys ▸ h)

theorem remove_model_get_ne (m : LLMManager) (id j : String) (h : j ≠ id) :
    dictGet (remove_model m id).modelInstances j = dictGet m.modelInstances j := by
  unfold remove_model
  cases hg : dictGet m.modelInstances id with
  | none => rfl
  | some llm =>
      show dictGet (dictDel _ id) j = _
      rw [dictGet_dictDel_ne _ _ _ h, dictGet_dictSet_ne _ _ _ _ h]

/-- C2: for a live instance and a successful `use_model` call, with
`save_context=true` and `append_prompt=true` the live context grows by
exactly the two messages `Message(role, prompt)` then
`Message("assistant", response)`; with `save_context=false` the manager (and
hence the live context) is unchanged for any `append_prompt`; with
`save_context=true` and `append_prompt=false` only
`Message("assistant", response)` is appended. -/
theorem spec2proof_C2 (m : LLMManager) (id p r : String) (llm : LLMInst)
    (h : dictGet m.modelInstances id = some llm) :
    (∀ resp, llm.generate (working_context llm p r true) = .ok resp →
       dictGet (use_model m id p r true true).2.modelInstances id
         = some (LLMInst.mk llm.config llm.generate
             (llm.context ++ [Message.mk r p, Message.mk "assistant" resp]))) ∧
    (∀ ap : Bool, (use_model m id p r false ap).2 = m) ∧
    (∀ resp, llm.generate (working_context llm p r false) = .ok resp →
       dictGet (use_model m id p r true false).2.modelInstances id
         = some (LLMInst.mk llm.config llm.generate
             (llm.context ++ [Message.mk "assistant" resp]))) := by
  refine ⟨?_, ?_, ?_⟩
  · intro resp hg
    rw [use_model_gen_ok_save m id p r true llm resp h hg]
    simp [dictGet_dictSet_self, saved_instance]
  · intro ap
    cases hg : llm.generate (working_context llm p r ap) with
    | error e => rw [use_model_gen_err m id p r false ap llm e h hg]
    | ok resp => rw [use_model_gen_ok_nosave m id p r ap llm resp h hg]
  · intro resp hg
    rw [use_model_gen_ok_save m id p r false llm resp h hg]
    simp [dictGet_dictSet_self, saved_instance]

/-- Witness for C2 at the echo scenario instance `a` (context `[]`). -/
theorem spec2proof_C2_w :
    dictGet (use_model echoM "a" "hi" "user" true true).2.modelInstances "a"
      = some (LLMInst.mk cfg0 echoGen
          [Message.mk "user" "hi", Message.mk "assistant" "ECHO:hi"]) ∧
    (use_model echoM "a" "hi" "user" false true).2 = echoM := by
  have h : dictGet echoM.modelInstances "a" = some (LLMInst.mk cfg0 echoGen []) := rfl
  have hc := spec2proof_C2 echoM "a" "hi" "user" (LLMInst.mk cfg0 echoGen []) h
  exact ⟨hc.1 "ECHO:hi" rfl, hc.2.1 true⟩

/-- C3: `use_model` passes `generate` a working context built from a copy of
the live context taken at call time: with `append_prompt=false` the prompt is
absent from it for any `save_context`, with `append_prompt=true` the prompt
message is appended to the copy only, and the call outcome is exactly
`generate` applied to that copy of the pre-call live context. -/
theorem spec2proof_C3 (m : LLMManager) (id p r : String) ( sc : Bool)
    (llm : LLMInst) (h : dictGet m.modelInstances id = some llm) :
    working_context llm p r false = llm.context ∧
    working_context llm p r true = llm.context ++ [Message.mk r p] ∧
    ∀ ap : Bool, (use_model m id p r sc ap).1 =
      Except.mapError DispatchError.backend
        (llm.generate (working_context llm p r ap)) := by
  refine ⟨rfl, rfl, ?_⟩
  intro ap
  cases hg : llm.generate (working_context llm p r ap) with
  | error e =>
      rw [use_model_gen_err m id p r sc ap llm e h hg]
      rfl
  | ok resp =>
      cases sc with
      | true =>
          rw [use_model_gen_ok_save m id p r ap llm resp h hg]
          rfl
      | false =>
          rw [use_model_gen_ok_nosave m id p r ap llm resp h hg]
          rfl

/-- Witness for C3 at the echo scenario instance `a`. -/
theorem spec2proof_C3_w :
    working_context (LLMInst.mk cfg0 echoGen []) "hi" "user" false = [] ∧
    (use_model echoM "a" "hi" "user" true false).1 =
      Except.mapError DispatchError.backend
        (echoGen (working_context (LLMInst.mk cfg0 echoGen []) "hi" "user" false)) := by
  have hc := spec2proof_C3 echoM "a" "hi" "user" true (LLMInst.mk cfg0 echoGen []) rfl
  exact ⟨hc.1, hc.2.2 false⟩

/-- C4: when `generate` fails, `use_model` returns the backend error to its
caller and the manager — in particular the instance's live context — is
exactly what it was before the call, for all flag values. -/
theorem spec2proof_C4 (m : LLMManager) (id p r : String) ( sc ap : Bool)
    (llm : LLMInst) (e : String)
    (h : dictGet m.modelInstances id = some llm)
    (hg : llm.generate (working_context llm p r ap) = .error e) :
    use_model m id p r sc ap = (.error (.backend e), m) :=
  use_model_gen_err m id p r sc ap llm e h hg

/-- Witness for C4 at the failing instance `f` of the demo manager. -/
theorem spec2proof_C4_w :
    use_model demoM "f" "hi" "user" true true
      = (.error (.backend "BACKEND FAILURE"), demoM) :=
  spec2proof_C4 demoM "f" "hi" "user" true true
    (LLMInst.mk cfg0 failGen []) "BACKEND FAILURE" rfl rfl

/-- C7: `remove_model` of an absent id is a no-op (and the function never
raises, being total); on a live id the entry is gone after the call (the
context is cleared before the deletion in the definition); removing twice is
the same as removing once; no other id's entry is touched. -/
theorem spec2proof_C7 (m : LLMManager) (id : String) :
    (dictGet m.modelInstances id = none → remove_model m id = m) ∧
    (instKeysNodup m → dictGet (remove_model m id).modelInstances id = none) ∧
    (instKeysNodup m →
       remove_model (remove_model m id) id = remove_model m id) ∧
    (∀ j, j ≠ id →
       dictGet (remove_model m id).modelInstances j = dictGet m.modelInstances j) := by
  refine ⟨remove_model_absent m id, remove_model_get_self m id, ?_,
    remove_model_get_ne m id⟩
  intro h
  exact remove_model_absent _ id (remove_model_get_self m id h)

/-- Witness for C7: removing the absent id `x` from the demo manager is a
no-op, and after removing the live id `a` it is no longer live. -/
theorem spec2proof_C7_w :
    remove_model demoM "x" = demoM ∧
    dictGet (remove_model demoM "a").modelInstances "a" = none := by
  have hnd : instKeysNodup demoM := by
    show (demoM.modelInstances.map Prod.fst).Nodup
    decide
  exact ⟨(spec2proof_C7 demoM "x").1 rfl, (spec2proof_C7 demoM "a").2.1 hnd⟩

/-- C8: in the registry with type `Echo` (whose `generate` returns `"ECHO:"`
plus the last message's content) and instance `a` of that type,
`use_model "a" "hi"` with both flags set returns `"ECHO:hi"` and leaves the
context `[("user","hi"), ("assistant","ECHO:hi")]`; in general a successful
`use_model` returns exactly what `generate` produced on the working
context. -/
theorem spec2proof_C8 :
    ((use_model echoM "a" "hi" "user" true true).1 = .ok "ECHO:hi" ∧
     (dictGet (use_model echoM "a" "hi" "user" true true).2.modelInstances "a").map
         LLMInst.context
       = some [Message.mk "user" "hi", Message.mk "assistant" "ECHO:hi"]) ∧
    ∀ (m : LLMManager) (id p r : String) ( sc ap : Bool) (llm : LLMInst)
      (resp : String),
      dictGet m.modelInstances id = some llm →
      llm.generate (working_context llm p r ap) = .ok resp →
      (use_model m id p r sc ap).1 = .ok resp := by
  refine ⟨⟨rfl, rfl⟩, ?_⟩
  intro m id p r sc ap llm resp h hg
  cases sc with
  | true => rw [use_model_gen_ok_save m id p r ap llm resp h hg]
  | false => rw [use_model_gen_ok_nosave m id p r ap llm resp h hg]

/-- C9: rendering a conversation fails with the instance-not-found error for
an id that is not live, and otherwise yields the (uppercased role, content)
pair of each message in context order; the Python body only reads the
registry, which the embedding reflects by returning no state. -/
theorem spec2proof_C9 (m : LLMManager) (id : String) :
    (dictGet m.modelInstances id = none →
       print_conversation_history m id = .error (.instanceNotFound id)) ∧
    ∀ llm, dictGet m.modelInstances id = some llm →
      print_conversation_history m id
        = .ok (llm.context.map (fun msg => (pyUpper msg.role, msg.content))) := by
  constructor
  · intro h
    simp [print_conversation_history, h]
  · intro llm h
    simp [print_conversation_history, h]

/-- Witness for C9: rendering the absent id `x` fails, and rendering `a`
after one saved echo round yields the uppercased transcript. -/
theorem spec2proof_C9_w :
    print_conversation_history demoM "x" = .error (.instanceNotFound "x") ∧
    print_conversation_history (use_model echoM "a" "hi" "user" true true).2 "a"
      = .ok [("USER", "hi"), ("ASSISTANT", "ECHO:hi")] := by
  refine ⟨(spec2proof_C9 demoM "x").1 rfl, ?_⟩
  have h := (spec2proof_C9 (use_model echoM "a" "hi" "user" true true).2 "a").2
    (LLMInst.mk cfg0 echoGen [Message.mk "user" "hi", Message.mk "assistant" "ECHO:hi"])
    rfl
  rw [h]
  rfl

/-- C5: across any operation sequence from a fresh registry no two live
instances ever share an id (every prefix of a sequence is itself a
sequence, so this covers every intermediate point); instantiating a live id
with a registered type fails with the duplicate-instance error leaving the
state untouched; instantiating an unregistered type fails with the
unknown-type error leaving the state untouched; a successful instantiation
stores a new instance of the requested type under the id with empty
context. -/
theorem spec2proof_C5 :
    (∀ ops : List MgrOp, instKeysNodup (runOps LLMManager.fresh ops)) ∧
    (∀ (m : LLMManager) (id t : String) (c : Config),
       (dictGet m.modelInstances id).isSome →
       (dictGet m.modelCatalog t).isSome →
       instantiate_model m id t c = (.error (.duplicateInstance id), m)) ∧
    (∀ (m : LLMManager) (id t : String) (c : Config),
       dictGet m.modelCatalog t = none →
       instantiate_model m id t c = (.error (.unknownType t), m)) ∧
    (∀ (m : LLMManager) (id t : String) (c : Config) (res : LLMManager),
       instantiate_model m id t c = (.ok (), res) →
       ∃ gen, dictGet m.modelCatalog t = some gen ∧
         dictGet res.modelInstances id = some (LLMInst.mk c gen [])) := by
  refine ⟨?_, ?_, ?_, ?_⟩
  · intro ops
    exact runOps_nodup ops LLMManager.fresh (by simp [instKeysNodup, LLMManager.fresh])
  · intro m id t c hi ht
    obtain ⟨gen, hgen⟩ := Option.isSome_iff_exists.mp ht
    simp [instantiate_model, hgen, hi]
  · intro m id t c ht
    simp [instantiate_model, ht]
  · intro m id t c res hok
    cases hgen : dictGet m.modelCatalog t with
    | none =>
        have hne : instantiate_model m id t c = (.error (.unknownType t), m) := by
          simp [instantiate_model, hgen]
        rw [hne] at hok
        simp at hok
    | some gen =>
        by_cases hi : (dictGet m.modelInstances id).isSome
        · have hne : instantiate_model m id t c
              = (.error (.duplicateInstance id), m) := by
            simp [instantiate_model, hgen, hi]
          rw [hne] at hok
          simp at hok
        · have hins : instantiate_model m id t c
              = (.ok (), LLMManager.mk m.modelCatalog
                  (dictSet m.modelInstances id (LLMInst.mk c gen []))) := by
            simp [instantiate_model, hgen, hi]
          rw [hins, Prod.mk.injEq] at hok
          refine ⟨gen, rfl, ?_⟩
          rw [← hok.2]
          exact dictGet_dictSet_self _ _ _

/-- Witness for C5: a duplicate-id instantiation and an unknown-type
instantiation against the demo manager both fail without mutating it, and
the empty operation sequence keeps the fresh registry duplicate-free. -/
theorem spec2proof_C5_w :
    instantiate_model demoM "a" "Echo" cfg0
      = (.error (.duplicateInstance "a"), demoM) ∧
    instantiate_model demoM "z" "Nope" cfg0
      = (.error (.unknownType "Nope"), demoM) ∧
    instKeysNodup (runOps LLMManager.fresh []) :=
  ⟨spec2proof_C5.2.1 demoM "a" "Echo" cfg0 rfl rfl,
   spec2proof_C5.2.2.1 demoM "z" "Nope" cfg0 rfl,
   spec2proof_C5.1 []⟩

/-- C1: `use_multiple_models` maps every requested id to an entry, and that
entry is the id's own `use_model` result — the response on success and the
`"ERROR: ..."` marker embedding the stringified exception on failure, never
a raised exception (the function is total); the id's live entry in the final
state is exactly what dispatching that id alone against the initial state
produces. -/
theorem spec2proof_C1 (m : LLMManager) (ids : List String) (p r : String)
    ( sc ap : Bool) (id : String) (h : id ∈ ids) :
    dictGet (use_multiple_models m ids p r sc ap).1 id
      = some (use_model_outcome m id p r sc ap) ∧
    dictGet (use_multiple_models m ids p r sc ap).2.modelInstances id
      = dictGet (use_model m id p r sc ap).2.modelInstances id ∧
    (∀ resp mm, use_model m id p r sc ap = (.ok resp, mm) →
       use_model_outcome m id p r sc ap = resp) ∧
    (∀ e mm, use_model m id p r sc ap = (.error e, mm) →
       use_model_outcome m id p r sc ap = "ERROR: " ++ e.pyStr) := by
  have hspec := umGo_spec (pyDictKeys ids) m p r sc ap id (nodup_pyDictKeys ids)
    ((mem_pyDictKeys ids id).mpr h)
  refine ⟨hspec.1, hspec.2, ?_, ?_⟩
  · intro resp mm hu
    unfold use_model_outcome umEntry
    rw [hu]
  · intro e mm hu
    unfold use_model_outcome umEntry
    rw [hu]

/-- Witness for C1: the batch over the echo instance `a` and the failing
instance `f` gives `a` its solo response entry, and `a`'s final live entry
matches a solo dispatch. -/
theorem spec2proof_C1_w :
    dictGet (use_multiple_models demoM ["a", "f"] "hi" "user" true true).1 "a"
      = some (use_model_outcome demoM "a" "hi" "user" true true) ∧
    dictGet (use_multiple_models demoM ["a", "f"] "hi" "user" true true).2.modelInstances "a"
      = dictGet (use_model demoM "a" "hi" "user" true true).2.modelInstances "a" := by
  have hc := spec2proof_C1 demoM ["a", "f"] "hi" "user" true true "a"
    (by simp)
  exact ⟨hc.1, hc.2.1⟩

/-- C10: a non-live id among the targets of `use_multiple_models` does not
make the call raise: its `InstanceNotFoundError` is captured and reported as
the error-marker entry `"ERROR: INSTANCE '<id>' NOT FOUND."`, the id is
still not live afterwards, and every target id's entry is its own solo
`use_model` outcome. -/
theorem spec2proof_C10 (m : LLMManager) (ids : List String) (p r : String)
    ( sc ap : Bool) (id : String) (hmem : id ∈ ids)
    (habs : dictGet m.modelInstances id = none) :
    dictGet (use_multiple_models m ids p r sc ap).1 id
      = some ("ERROR: " ++ ("INSTANCE " ++ pyQuote ++ id ++ pyQuote ++ " NOT FOUND.")) ∧
    dictGet (use_multiple_models m ids p r sc ap).2.modelInstances id = none ∧
    (∀ j, j ∈ ids → dictGet (use_multiple_models m ids p r sc ap).1 j
       = some (use_model_outcome m j p r sc ap)) := by
  have hone := use_model_none m id p r sc ap habs
  have hs := umGo_spec (pyDictKeys ids) m p r sc ap id (nodup_pyDictKeys ids)
    ((mem_pyDictKeys ids id).mpr hmem)
  refine ⟨?_, ?_, ?_⟩
  · show dictGet (umGo m (pyDictKeys ids) p r sc ap).1 id = _
    rw [hs.1]
    unfold use_model_outcome umEntry
    rw [hone]
    rfl
  · show dictGet (umGo m (pyDictKeys ids) p r sc ap).2.modelInstances id = none
    rw [hs.2, hone]
    exact habs
  · intro j hj
    have hsj := umGo_spec (pyDictKeys ids) m p r sc ap j (nodup_pyDictKeys ids)
      ((mem_pyDictKeys ids j).mpr hj)
    exact hsj.1

/-- Witness for C10: in a batch over the live `a` and the absent `x`, the
call returns, `x` gets the not-found marker and `a` its solo outcome. -/
theorem spec2proof_C10_w :
    dictGet (use_multiple_models demoM ["a", "x"] "hi" "user" true true).1 "x"
      = some ("ERROR: " ++ ("INSTANCE " ++ pyQuote ++ "x" ++ pyQuote ++ " NOT FOUND.")) ∧
    dictGet (use_multiple_models demoM ["a", "x"] "hi" "user" true true).1 "a"
      = some (use_model_outcome demoM "a" "hi" "user" true true) := by
  have hc := spec2proof_C10 demoM ["a", "x"] "hi" "user" true true "x"
    (by simp) rfl
  exact ⟨hc.1, hc.2.2 "a" (by simp)⟩

/-- C6 counterexample: over the echo scenario manager (instance `a`, empty
context), `use_multiple_models ["a", "a"]` with `save_context=true` and
`append_prompt=true` performs one round-trip, not two: the result dict has
the single entry `("a", "ECHO:hi")` and the live context ends with 2
messages, not the 4 that one dispatch per occurrence would have produced. -/
theorem spec2proof_C6_cex :
    (use_multiple_models echoM ["a", "a"] "hi" "user" true true).1
      = [("a", "ECHO:hi")] ∧
    ((dictGet (use_multiple_models echoM ["a", "a"] "hi" "user" true true).2.modelInstances
        "a").map (fun i => i.context.length)) = some 2 ∧
    ¬ ((dictGet (use_multiple_models echoM ["a", "a"] "hi" "user" true true).2.modelInstances
        "a").map (fun i => i.context.length)) = some 4 := by
  refine ⟨rfl, rfl, ?_⟩
  intro h
  rw [show ((dictGet (use_multiple_models echoM ["a", "a"] "hi" "user" true true).2.modelInstances
      "a").map (fun i => i.context.length)) = some 2 from rfl] at h
  exact absurd h (by decide)

/-- C6 amended: the task dict of `use_multiple_models` is keyed by instance
id, so duplicate ids in the input list are collapsed: the batch equals the
batch over the distinct ids in first-occurrence order (each distinct id
dispatched exactly once), that key list covers exactly the requested ids,
and it has no duplicates. -/
theorem spec2proof_C6 (m : LLMManager) (ids : List String) (p r : String)
    ( sc ap : Bool) :
    use_multiple_models m ids p r sc ap
      = use_multiple_models m (pyDictKeys ids) p r sc ap ∧
    (∀ id, id ∈ pyDictKeys ids ↔ id ∈ ids) ∧
    (pyDictKeys ids).Nodup := by
  refine ⟨?_, fun id => mem_pyDictKeys ids id, nodup_pyDictKeys ids⟩
  show umGo m (pyDictKeys ids) p r sc ap
      = umGo m (pyDictKeys (pyDictKeys ids)) p r sc ap
  rw [pyDictKeys_idem]

/-- Witness for C8's general clause at the echo scenario. -/
theorem spec2proof_C8_w :
    (use_model echoM "a" "hi" "user" true true).1 = .ok "ECHO:hi" :=
  spec2proof_C8.2 echoM "a" "hi" "user" true true (LLMInst.mk cfg0 echoGen [])
    "ECHO:hi" rfl rfl
